import Mathlib

/- Verification of the PX4 Rust module-entry harness (px4/src/lib.rs):
   the `_run` entry wrapper and the `MainStatusCode` trait with its four
   built-in implementations. Raw C strings are modelled as lists of bytes
   (Nat, each below 256, with the terminating NUL stripped); a valid
   argument is viewed by `CStr::to_str` as a `&str` over the very same
   bytes, so the string-slice model is the byte list itself. -/

/-- A byte string: the model of the bytes of a raw C argument and, when
those bytes are valid UTF-8, of the `&str` viewing the same bytes. -/
abbrev Str := List Nat

/-- Whether a byte is a UTF-8 continuation byte (0x80..=0xBF). -/
def isCont (b : Nat) : Bool := decide (0x80 ≤ b ∧ b ≤ 0xBF)

/-- UTF-8 validity of a byte sequence, following the ranges checked by
`core::str::from_utf8` (which `CStr::to_str` calls): ASCII; two-byte
sequences led by 0xC2..=0xDF; three-byte sequences led by 0xE0 (second byte
0xA0..=0xBF, excluding overlong forms), 0xE1..=0xEC, 0xED (second byte
0x80..=0x9F, excluding surrogates) or 0xEE..=0xEF; four-byte sequences led
by 0xF0 (second byte 0x90..=0xBF), 0xF1..=0xF3 or 0xF4 (second byte
0x80..=0x8F, bounding code points by 0x10FFFF). -/
def validUtf8 : List Nat → Bool
  | [] => true
  | b :: rest =>
    if b ≤ 0x7F then validUtf8 rest
    else if 0xC2 ≤ b ∧ b ≤ 0xDF then
      match rest with
      | b1 :: r => isCont b1 && validUtf8 r
      | [] => false
    else if b = 0xE0 then
      match rest with
      | b1 :: b2 :: r => decide (0xA0 ≤ b1 ∧ b1 ≤ 0xBF) && isCont b2 && validUtf8 r
      | _ => false
    else if 0xE1 ≤ b ∧ b ≤ 0xEC then
      match rest with
      | b1 :: b2 :: r => isCont b1 && isCont b2 && validUtf8 r
      | _ => false
    else if b = 0xED then
      match rest with
      | b1 :: b2 :: r => decide (0x80 ≤ b1 ∧ b1 ≤ 0x9F) && isCont b2 && validUtf8 r
      | _ => false
    else if 0xEE ≤ b ∧ b ≤ 0xEF then
      match rest with
      | b1 :: b2 :: r => isCont b1 && isCont b2 && validUtf8 r
      | _ => false
    else if b = 0xF0 then
      match rest with
      | b1 :: b2 :: b3 :: r =>
        decide (0x90 ≤ b1 ∧ b1 ≤ 0xBF) && isCont b2 && isCont b3 && validUtf8 r
      | _ => false
    else if 0xF1 ≤ b ∧ b ≤ 0xF3 then
      match rest with
      | b1 :: b2 :: b3 :: r => isCont b1 && isCont b2 && isCont b3 && validUtf8 r
      | _ => false
    else if b = 0xF4 then
      match rest with
      | b1 :: b2 :: b3 :: r =>
        decide (0x80 ≤ b1 ∧ b1 ≤ 0x8F) && isCont b2 && isCont b3 && validUtf8 r
      | _ => false
    else false

/-- Model of `CStr::to_str` on the bytes of one argument: the same byte
sequence viewed as a string slice when it is valid UTF-8, failure
otherwise. -/
def to_str (a : List Nat) : Option Str :=
  if validUtf8 a then some a else none

/-- A panic payload: the message and the source location reported when the
panic is logged. -/
structure Panic where
  message : String
  location : String
deriving DecidableEq

/-- The panic raised by the argument loop of `_run` on invalid UTF-8:
`panic!("Invalid UTF-8 in arguments.")` at px4/src/lib.rs line 131. -/
def invalidUtf8Panic : Panic :=
  ⟨"Invalid UTF-8 in arguments.", "px4/src/lib.rs:131"⟩

/-- Observable actions of one `_run` invocation, in execution order.
`initLog` is the `logging::init(modulename)` call; `convertArg` is one
iteration of the argument-conversion loop; `callF` is the single invocation
of the user function on the converted slice; `panicLogged` is the report of
a caught panic (message and location) through the logging sink. Modelled
from the spec: the logging module (the body of `logging::init` and the
panic reporting it installs) is outside the available sources, so its
behaviour is recorded abstractly as trace events, per spec sections 4.1
(step 1) and 7 (abnormal termination is logged before the boundary
returns). -/
inductive Event where
  | initLog (modulename : List Nat)
  | convertArg (raw : List Nat)
  | callF (args : List Str)
  | panicLogged (p : Panic)
deriving DecidableEq

/-- Whether an event is an invocation of the user function. -/
def isCallF : Event → Bool
  | Event.callF _ => true
  | _ => false

/-- The `MainStatusCode` trait: the return type of a module main function.
`to_status_code` maps the returned value to the i32 status code;
`panic_status_code` is the code returned after a caught panic, −1 by
default exactly as in the trait's provided method. Status codes are i32
values modelled as `Int` (no arithmetic is performed on them, so no
wraparound can occur). -/
class MainStatusCode (R : Type) where
  to_status_code : R → Int
  panic_status_code : Int := -1

/-- `impl MainStatusCode for ()`: returns 0. -/
instance instStatusUnit : MainStatusCode Unit where
  to_status_code _ := 0

/-- `impl MainStatusCode for i32`: returns the value itself. -/
instance instStatusI32 : MainStatusCode Int where
  to_status_code s := s

/-- `impl MainStatusCode for Result<(), ()>`: 0 for `Ok`, 1 for `Err`. -/
instance instStatusResultUnit : MainStatusCode (Except Unit Unit) where
  to_status_code r :=
    match r with
    | Except.ok () => 0
    | Except.error () => 1

/-- `impl MainStatusCode for Result<(), i32>`: 0 for `Ok`, the carried code
for `Err`. -/
instance instStatusResultI32 : MainStatusCode (Except Int Unit) where
  to_status_code r :=
    match r with
    | Except.ok () => 0
    | Except.error s => s

/-- The panic status code of a return type, `R::panic_status_code()`. -/
def panicCode (R : Type) [MainStatusCode R] : Int :=
  MainStatusCode.panic_status_code (R := R)

/-- The argument-conversion loop of `_run` (px4/src/lib.rs lines 126–133):
each raw argument in order is converted with `CStr::to_str`; the first
invalid one panics with `invalidUtf8Panic` and ends the loop. Returns the
outcome together with one `convertArg` event per conversion attempted. -/
def convertArgs : List (List Nat) → Except Panic (List Str) × List Event
  | [] => (Except.ok [], [])
  | a :: rest =>
    match to_str a with
    | some s =>
      match convertArgs rest with
      | (Except.ok strs, evs) => (Except.ok (s :: strs), Event.convertArg a :: evs)
      | (Except.error p, evs) => (Except.error p, Event.convertArg a :: evs)
    | none => (Except.error invalidUtf8Panic, [Event.convertArg a])

/-- Model of `_run` (px4/src/lib.rs lines 119–136): initialize logging with
the module name, then inside `catch_unwind` convert the arguments
(panicking on invalid UTF-8), call the user function on the converted slice
and map its value through `to_status_code`; a caught panic is logged and
replaced by `R::panic_status_code()` via `unwrap_or`. The user function is
modelled as returning either its value or a panic; the result is the status
code together with the ordered trace of observable actions. -/
def _run {R : Type} [MainStatusCode R] (modulename : List Nat)
    (args : List (List Nat)) (f : List Str → Except Panic R) : Int × List Event :=
  match convertArgs args with
  | (Except.error p, evs) =>
    (panicCode R, Event.initLog modulename :: (evs ++ [Event.panicLogged p]))
  | (Except.ok strs, evs) =>
    match f strs with
    | Except.ok r =>
      (MainStatusCode.to_status_code r,
        Event.initLog modulename :: (evs ++ [Event.callF strs]))
    | Except.error p =>
      (panicCode R,
        Event.initLog modulename :: (evs ++ [Event.callF strs, Event.panicLogged p]))

/-- A user-defined `MainStatusCode` instance for `()` overriding the panic
status code with −7, exercising the extension point of the trait. -/
def overridingCode : MainStatusCode Unit :=
  { to_status_code := fun _ => 0, panic_status_code := -7 }

theorem convertArgs_of_valid (args : List (List Nat))
    (h : ∀ a ∈ args, validUtf8 a = true) :
    convertArgs args = (Except.ok args, args.map Event.convertArg) := by
  induction args with
  | nil => rfl
  | cons a rest ih =>
    have ha : validUtf8 a = true := h a (List.mem_cons_self a rest)
    have hrest := ih (fun x hx => h x (List.mem_cons_of_mem a hx))
    simp [convertArgs, to_str, ha, hrest]

theorem convertArgs_of_invalid (args : List (List Nat))
    (h : ∃ a ∈ args, validUtf8 a = false) :
    (convertArgs args).fst = Except.error invalidUtf8Panic := by
  induction args with
  | nil => simp at h
  | cons a rest ih =>
    cases ha : validUtf8 a with
    | false => simp [convertArgs, to_str, ha]
    | true =>
      have hrest : ∃ x ∈ rest, validUtf8 x = false := by
        rcases h with ⟨x, hx, hxv⟩
        rcases List.mem_cons.mp hx with h1 | h2
        · subst h1; rw [ha] at hxv; cases hxv
        · exact ⟨x, h2, hxv⟩
      have htl := ih hrest
      rcases hr : convertArgs rest with ⟨res, evs⟩
      rw [hr] at htl
      simp only at htl
      subst htl
      simp [convertArgs, to_str, ha, hr]

theorem convertArgs_filter_callF (args : List (List Nat)) :
    List.filter isCallF (convertArgs args).snd = [] := by
  induction args with
  | nil => rfl
  | cons a rest ih =>
    cases ha : to_str a with
    | none => simp [convertArgs, ha, isCallF]
    | some s =>
      rcases hr : convertArgs rest with ⟨res, evs⟩
      rw [hr] at ih
      simp only at ih
      cases res with
      | ok strs => simp [convertArgs, ha, hr, isCallF, ih]
      | error p => simp [convertArgs, ha, hr, isCallF, ih]

theorem filter_callF_map_convertArg (l : List (List Nat)) :
    List.filter isCallF (l.map Event.convertArg) = [] := by
  induction l with
  | nil => rfl
  | cons a r ih => simp [isCallF, ih]

/-- C1: a panic raised by the user function is caught inside `_run`, which
returns normally with `R::panic_status_code()` instead of propagating the
panic to its caller; that code is −1 for all four built-in
`MainStatusCode` implementations. -/
theorem c1_user_panic_caught :
    (∀ (R : Type) [MainStatusCode R] (m : List Nat) (args : List (List Nat))
      (f : List Str → Except Panic R) (strs : List Str) (p : Panic),
      (convertArgs args).fst = Except.ok strs →
      f strs = Except.error p →
      (_run m args f).fst = panicCode R)
    ∧ panicCode Unit = -1 ∧ panicCode Int = -1
    ∧ panicCode (Except Unit Unit) = -1 ∧ panicCode (Except Int Unit) = -1 := by
  refine ⟨?_, rfl, rfl, rfl, rfl⟩
  intro R _ m args f strs p hconv hf
  rcases hr : convertArgs args with ⟨res, evs⟩
  rw [hr] at hconv
  simp only at hconv
  subst hconv
  simp [_run, hr, hf]

/-- C1 witness: a concrete panicking user function of unit return type. -/
theorem c1_user_panic_caught_witness :
    (_run [] [] (fun _ => (Except.error ⟨"boom", "module.rs:3"⟩ : Except Panic Unit))).fst
      = panicCode Unit :=
  c1_user_panic_caught.1 Unit [] []
    (fun _ => Except.error ⟨"boom", "module.rs:3"⟩) [] ⟨"boom", "module.rs:3"⟩ rfl rfl

/-- C2: the built-in status mappings: `()` maps to 0, every `i32` value to
itself, `Result<(), ()>` maps `Ok` to 0 and `Err` to 1, and
`Result<(), i32>` maps `Ok` to 0 and `Err(code)` to `code`. -/
theorem c2_builtin_mappings :
    MainStatusCode.to_status_code () = 0
    ∧ (∀ k : Int, MainStatusCode.to_status_code k = k)
    ∧ MainStatusCode.to_status_code (Except.ok () : Except Unit Unit) = 0
    ∧ MainStatusCode.to_status_code (Except.error () : Except Unit Unit) = 1
    ∧ MainStatusCode.to_status_code (Except.ok () : Except Int Unit) = 0
    ∧ (∀ c : Int, MainStatusCode.to_status_code (Except.error c : Except Int Unit) = c) :=
  ⟨rfl, fun _ => rfl, rfl, rfl, rfl, fun _ => rfl⟩

/-- C3: when some argument, at any position, is not valid UTF-8, `_run`
never invokes the user function (the trace holds no `callF` event) and
returns `R::panic_status_code()`. -/
theorem c3_invalid_utf8_aborts :
    ∀ (R : Type) [MainStatusCode R] (m : List Nat) (args : List (List Nat))
      (f : List Str → Except Panic R),
      (∃ a ∈ args, validUtf8 a = false) →
      (_run m args f).fst = panicCode R
        ∧ List.filter isCallF (_run m args f).snd = [] := by
  intro R _ m args f h
  have hconv := convertArgs_of_invalid args h
  have hfil := convertArgs_filter_callF args
  rcases hr : convertArgs args with ⟨res, evs⟩
  rw [hr] at hconv hfil
  simp only at hconv hfil
  subst hconv
  refine ⟨by simp [_run, hr], ?_⟩
  simp [_run, hr, isCallF, hfil]

/-- C3 witness: the single one-byte argument 0xFF is invalid UTF-8. -/
theorem c3_invalid_utf8_aborts_witness :
    (_run [] [[0xFF]] (fun _ => (Except.ok () : Except Panic Unit))).fst = panicCode Unit
    ∧ List.filter isCallF
        (_run [] [[0xFF]] (fun _ => (Except.ok () : Except Panic Unit))).snd = [] :=
  c3_invalid_utf8_aborts Unit [] [[0xFF]] (fun _ => Except.ok ())
    ⟨[0xFF], List.mem_cons_self _ _, by decide⟩

/-- C4: when every argument is valid UTF-8, `_run` invokes the user
function exactly once, on exactly the argument list (same length, same
text, same order); with zero arguments this is the call on the empty
slice. -/
theorem c4_valid_args_passed :
    ∀ (R : Type) [MainStatusCode R] (m : List Nat) (args : List (List Nat))
      (f : List Str → Except Panic R),
      (∀ a ∈ args, validUtf8 a = true) →
      List.filter isCallF (_run m args f).snd = [Event.callF args] := by
  intro R _ m args f h
  have hconv := convertArgs_of_valid args h
  cases hf : f args with
  | ok r => simp [_run, hconv, hf, isCallF, filter_callF_map_convertArg]
  | error p => simp [_run, hconv, hf, isCallF, filter_callF_map_convertArg]

/-- C4 witness: two valid ASCII arguments are passed through verbatim. -/
theorem c4_valid_args_passed_witness :
    List.filter isCallF
      (_run [] [[0x61], [0x62, 0x63]]
        (fun _ => (Except.ok () : Except Panic Unit))).snd
      = [Event.callF [[0x61], [0x62, 0x63]]] :=
  c4_valid_args_passed Unit [] [[0x61], [0x62, 0x63]] (fun _ => Except.ok ())
    (by decide)

/-- C5: a panic caught from the user function is reported, with its message
and location, through the logging sink: the `panicLogged` event carrying
exactly that panic is in the trace `_run` emits before returning. -/
theorem c5_panic_logged :
    ∀ (R : Type) [MainStatusCode R] (m : List Nat) (args : List (List Nat))
      (f : List Str → Except Panic R) (strs : List Str) (p : Panic),
      (convertArgs args).fst = Except.ok strs →
      f strs = Except.error p →
      Event.panicLogged p ∈ (_run m args f).snd := by
  intro R _ m args f strs p hconv hf
  rcases hr : convertArgs args with ⟨res, evs⟩
  rw [hr] at hconv
  simp only at hconv
  subst hconv
  simp [_run, hr, hf]

/-- C5 witness: a concrete panic's message and location reach the trace. -/
theorem c5_panic_logged_witness :
    Event.panicLogged ⟨"bye", "module.rs:9"⟩ ∈
      (_run [] []
        (fun _ => (Except.error ⟨"bye", "module.rs:9"⟩ : Except Panic Unit))).snd :=
  c5_panic_logged Unit [] [] (fun _ => Except.error ⟨"bye", "module.rs:9"⟩) []
    ⟨"bye", "module.rs:9"⟩ rfl rfl

/-- C6: every invocation of `_run` initializes the logging sink with the
module identifier first: the head of the trace is `initLog m`, before every
argument conversion and before the user call, on invocations ending in the
panic status included. -/
theorem c6_logging_initialized_first :
    ∀ (R : Type) [MainStatusCode R] (m : List Nat) (args : List (List Nat))
      (f : List Str → Except Panic R),
      ((_run m args f).snd).head? = some (Event.initLog m) := by
  intro R _ m args f
  rcases hr : convertArgs args with ⟨res, evs⟩
  cases res with
  | error p => simp [_run, hr]
  | ok strs => cases hf : f strs <;> simp [_run, hr, hf]

/-- C7: the trait-provided default panic status code is −1 (any instance
giving only `to_status_code` gets −1), and each of the four built-in
implementations leaves the default in place, so `panic_status_code()` is −1
for all of them. -/
theorem c7_default_panic_code :
    (∀ (R : Type) (g : R → Int),
      @MainStatusCode.panic_status_code R { to_status_code := g } = -1)
    ∧ panicCode Unit = -1 ∧ panicCode Int = -1
    ∧ panicCode (Except Unit Unit) = -1 ∧ panicCode (Except Int Unit) = -1 :=
  ⟨fun _ _ => rfl, rfl, rfl, rfl, rfl⟩

/-- C8: for `Result<(), i32>` the failure value `Err(0)` maps to status 0,
the same code as success, so the status does not separate success from a
zero-payload failure. -/
theorem c8_err_zero_is_zero :
    MainStatusCode.to_status_code (Except.error 0 : Except Int Unit) = 0
    ∧ MainStatusCode.to_status_code (Except.ok () : Except Int Unit) = 0 :=
  ⟨rfl, rfl⟩

/-- C9: an invalid-UTF-8 abort and a caught user panic yield the same
status, exactly `R::panic_status_code()` of whatever instance is in use, so
a user-defined override of the panic code changes the invalid-argument
status as well. -/
theorem c9_abort_equals_panic_status :
    ∀ (R : Type) [MainStatusCode R] (m : List Nat)
      (argsBad argsOk : List (List Nat)) (f g : List Str → Except Panic R)
      (strs : List Str) (p : Panic),
      (∃ a ∈ argsBad, validUtf8 a = false) →
      (convertArgs argsOk).fst = Except.ok strs →
      g strs = Except.error p →
      (_run m argsBad f).fst = panicCode R ∧ (_run m argsOk g).fst = panicCode R := by
  intro R _ m argsBad argsOk f g strs p hbad hok hg
  constructor
  · have hconv := convertArgs_of_invalid argsBad hbad
    rcases hr : convertArgs argsBad with ⟨res, evs⟩
    rw [hr] at hconv
    simp only at hconv
    subst hconv
    simp [_run, hr]
  · rcases hr : convertArgs argsOk with ⟨res, evs⟩
    rw [hr] at hok
    simp only at hok
    subst hok
    simp [_run, hr, hg]

/-- C9 witness: under the instance overriding the panic code to −7, both
the invalid-argument abort and the caught user panic return −7. -/
theorem c9_abort_equals_panic_status_witness :
    (@_run Unit overridingCode [] [[0xFF]] (fun _ => Except.ok ())).fst = -7
    ∧ (@_run Unit overridingCode [] [] (fun _ => Except.error ⟨"x", "y"⟩)).fst = -7 := by
  have h := @c9_abort_equals_panic_status Unit overridingCode [] [[0xFF]] []
    (fun _ => Except.ok ()) (fun _ => Except.error ⟨"x", "y"⟩) [] ⟨"x", "y"⟩
    ⟨[0xFF], List.mem_cons_self _ _, by decide⟩ rfl rfl
  exact ⟨h.1.trans rfl, h.2.trans rfl⟩

/-- C10: for a user function returning `()`, `_run` only ever returns 0
(normal completion) or −1 (caught panic or invalid argument). -/
theorem c10_unit_status_zero_or_neg_one :
    ∀ (m : List Nat) (args : List (List Nat)) (f : List Str → Except Panic Unit),
      (_run m args f).fst = 0 ∨ (_run m args f).fst = -1 := by
  intro m args f
  rcases hr : convertArgs args with ⟨res, evs⟩
  cases res with
  | error p => right; simp [_run, hr]; rfl
  | ok strs =>
    cases hf : f strs with
    | ok r => left; simp [_run, hr, hf]; rfl
    | error p => right; simp [_run, hr, hf]; rfl
